import Mathlib

/-!
Verification of the financial-app server (Express + SQLite personal-finance
tracker) against its natural-language specification.  The JavaScript route
handlers, scheduler and services are shallowly embedded as pure Lean
functions: SQL query results become lists of row structures, monetary values
become rationals, JavaScript floating-point special values (Infinity / NaN,
which matter for the division-by-zero guards) become an explicit `JSNum`
type, and fallible operations return `Except` / `Option`.
-/

/-! ## Frequency normalization (`calculateMonthlyIncome`)

The conversion of a periodic amount plus frequency string into a
monthly-equivalent amount.  The codebase contains several textually
identical copies of this helper; each is embedded separately under a
namespace naming its location, so that their agreement can be proved
rather than assumed. -/

namespace IncomeSummary

/-- `calculateMonthlyIncome` from the income routes (income summary
endpoint): switch on the frequency string, defaulting to 0. -/
def calculateMonthlyIncome (amount : ℚ) (frequency : String) : ℚ :=
  if frequency = "weekly" then amount * 52 / 12
  else if frequency = "biweekly" then amount * 26 / 12
  else if frequency = "monthly" then amount
  else if frequency = "quarterly" then amount / 3
  else if frequency = "annually" then amount / 12
  else if frequency = "variable" then amount
  else 0

end IncomeSummary

namespace AIScheduler

/-- `AIScheduler.calculateMonthlyIncome` from `services/scheduler.js`. -/
def calculateMonthlyIncome (amount : ℚ) (frequency : String) : ℚ :=
  if frequency = "weekly" then amount * 52 / 12
  else if frequency = "biweekly" then amount * 26 / 12
  else if frequency = "monthly" then amount
  else if frequency = "quarterly" then amount / 3
  else if frequency = "annually" then amount / 12
  else if frequency = "variable" then amount
  else 0

end AIScheduler

namespace InsightsRoute

/-- The `calculateMonthlyIncome` helper inside the AI-insights route of
`routes/transactions.js`. -/
def calculateMonthlyIncome (amount : ℚ) (frequency : String) : ℚ :=
  if frequency = "weekly" then amount * 52 / 12
  else if frequency = "biweekly" then amount * 26 / 12
  else if frequency = "monthly" then amount
  else if frequency = "quarterly" then amount / 3
  else if frequency = "annually" then amount / 12
  else if frequency = "variable" then amount
  else 0

end InsightsRoute

namespace ChatRoute

/-- The `calculateMonthly` helper inside the AI-chat route of
`routes/transactions.js`. -/
def calculateMonthly (amount : ℚ) (frequency : String) : ℚ :=
  if frequency = "weekly" then amount * 52 / 12
  else if frequency = "biweekly" then amount * 26 / 12
  else if frequency = "monthly" then amount
  else if frequency = "quarterly" then amount / 3
  else if frequency = "annually" then amount / 12
  else if frequency = "variable" then amount
  else 0

end ChatRoute

namespace OpportunitiesRoute

/-- The `calculateMonthlyIncome` helper inside the wealth-opportunities
route of `routes/transactions.js`. -/
def calculateMonthlyIncome (amount : ℚ) (frequency : String) : ℚ :=
  if frequency = "weekly" then amount * 52 / 12
  else if frequency = "biweekly" then amount * 26 / 12
  else if frequency = "monthly" then amount
  else if frequency = "quarterly" then amount / 3
  else if frequency = "annually" then amount / 12
  else if frequency = "variable" then amount
  else 0

end OpportunitiesRoute

/-- The six recognized frequency strings. -/
def recognizedFrequencies : List String :=
  ["weekly", "biweekly", "monthly", "quarterly", "annually", "variable"]

/-- C1: the monthly-equivalent income equals the fixed factor table
(weekly ×52/12, biweekly ×26/12, monthly ×1, quarterly ÷3, annually ÷12,
variable ×1), any unrecognized frequency yields 0, and every copy of the
conversion helper in the codebase (income summary, scheduler, insights,
chat, opportunities) computes the same function. -/
theorem calculateMonthlyIncome_spec (amount : ℚ) (frequency : String) :
    (IncomeSummary.calculateMonthlyIncome amount "weekly" = amount * 52 / 12 ∧
     IncomeSummary.calculateMonthlyIncome amount "biweekly" = amount * 26 / 12 ∧
     IncomeSummary.calculateMonthlyIncome amount "monthly" = amount ∧
     IncomeSummary.calculateMonthlyIncome amount "quarterly" = amount / 3 ∧
     IncomeSummary.calculateMonthlyIncome amount "annually" = amount / 12 ∧
     IncomeSummary.calculateMonthlyIncome amount "variable" = amount) ∧
    (frequency ∉ recognizedFrequencies →
      IncomeSummary.calculateMonthlyIncome amount frequency = 0) ∧
    (AIScheduler.calculateMonthlyIncome amount frequency =
       IncomeSummary.calculateMonthlyIncome amount frequency ∧
     InsightsRoute.calculateMonthlyIncome amount frequency =
       IncomeSummary.calculateMonthlyIncome amount frequency ∧
     ChatRoute.calculateMonthly amount frequency =
       IncomeSummary.calculateMonthlyIncome amount frequency ∧
     OpportunitiesRoute.calculateMonthlyIncome amount frequency =
       IncomeSummary.calculateMonthlyIncome amount frequency) := by
  refine ⟨⟨rfl, rfl, rfl, rfl, rfl, rfl⟩, ?_, rfl, rfl, rfl, rfl⟩
  intro hfreq
  simp only [recognizedFrequencies, List.mem_cons, List.not_mem_nil, or_false,
    not_or] at hfreq
  obtain ⟨h1, h2, h3, h4, h5, h6⟩ := hfreq
  simp [IncomeSummary.calculateMonthlyIncome, h1, h2, h3, h4, h5, h6]

/-- Witness for C1: concrete evaluation at amount 1200 and the
unrecognized frequency "daily". -/
theorem calculateMonthlyIncome_spec_witness :
    IncomeSummary.calculateMonthlyIncome 1200 "weekly" = 1200 * 52 / 12 ∧
    IncomeSummary.calculateMonthlyIncome 1200 "daily" = 0 := by
  have h := calculateMonthlyIncome_spec 1200 "daily"
  exact ⟨h.1.1, h.2.1 (by decide)⟩

/-! ## Net worth (`GET /networth` in `routes/wealth.js`)

The handler runs two aggregate queries over the current rows and combines
them; nothing is read from the `net_worth_snapshots` table. -/

/-- A row of the `accounts` table (the columns the net-worth queries use). -/
structure Account where
  user_id : String
  type : String
  balance : ℚ
deriving Repr, DecidableEq

/-- A row of the `retirement_accounts` table. -/
structure RetirementAccount where
  user_id : String
  balance : ℚ
deriving Repr, DecidableEq

/-- A row of the `assets` table. -/
structure Asset where
  user_id : String
  value : ℚ
deriving Repr, DecidableEq

/-- A stored point-in-time net-worth snapshot row. -/
structure NetWorthSnapshot where
  user_id : String
  total_assets : ℚ
  total_liabilities : ℚ
  net_worth : ℚ
deriving Repr, DecidableEq

/-- The tables the wealth routes read. -/
structure WealthDb where
  accounts : List Account
  retirement_accounts : List RetirementAccount
  assets : List Asset
  net_worth_snapshots : List NetWorthSnapshot
deriving Repr

/-- SQL `SUM(...)`: `NULL` (here `none`) on an empty row set. -/
def sqlSum (xs : List ℚ) : Option ℚ :=
  match xs with
  | [] => none
  | _ => some xs.sum

/-- JavaScript `x?.total || 0`: both `NULL` and `0` become `0`. -/
def jsOrZero (x : Option ℚ) : ℚ :=
  match x with
  | none => 0
  | some q => if q = 0 then 0 else q

/-- The asset-side query of `GET /networth`: balances of checking and
savings accounts, `UNION ALL` retirement balances, `UNION ALL` asset
values, summed. -/
def assetsQuery (db : WealthDb) (userId : String) : Option ℚ :=
  sqlSum
    (((db.accounts.filter (fun a =>
        a.user_id = userId ∧ (a.type = "checking" ∨ a.type = "savings"))).map
        Account.balance) ++
     ((db.retirement_accounts.filter (fun r => r.user_id = userId)).map
        RetirementAccount.balance) ++
     ((db.assets.filter (fun a => a.user_id = userId)).map Asset.value))

/-- The liability-side query of `GET /networth`: `SUM(ABS(balance))` over
credit-card, loan, mortgage and other-debt accounts. -/
def liabilitiesQuery (db : WealthDb) (userId : String) : Option ℚ :=
  sqlSum
    ((db.accounts.filter (fun a =>
        a.user_id = userId ∧
        (a.type = "credit_card" ∨ a.type = "loan" ∨ a.type = "mortgage" ∨
         a.type = "other_debt"))).map (fun a => |a.balance|))

/-- The JSON body returned by `GET /networth`. -/
structure NetWorthResponse where
  total_assets : ℚ
  total_liabilities : ℚ
  net_worth : ℚ
deriving Repr, DecidableEq

/-- `GET /networth`: run the two aggregate queries on the current rows and
combine them. -/
def getNetWorth (db : WealthDb) (userId : String) : NetWorthResponse :=
  let totalAssets := jsOrZero (assetsQuery db userId)
  let totalLiabilities := jsOrZero (liabilitiesQuery db userId)
  { total_assets := totalAssets
    total_liabilities := totalLiabilities
    net_worth := totalAssets - totalLiabilities }

/-- Example database for the spec's worked example: one user with accounts
checking 1000, savings 2000, credit_card −500. -/
def exampleWealthDb : WealthDb :=
  { accounts :=
      [{ user_id := "u1", type := "checking", balance := 1000 },
       { user_id := "u1", type := "savings", balance := 2000 },
       { user_id := "u1", type := "credit_card", balance := -500 }]
    retirement_accounts := []
    assets := []
    net_worth_snapshots := [] }

/-- C2: for every database state and user, the net-worth endpoint returns
net_worth = (sum of checking/savings balances + sum of retirement balances
+ sum of asset values) − (sum of absolute values of credit-card/loan/
mortgage/other-debt balances); on the spec's example rows it returns 2500;
and the response is computed from the current account/retirement/asset
rows only — it does not depend on the stored `net_worth_snapshots` table. -/
theorem getNetWorth_spec (db : WealthDb) (userId : String)
    (snaps : List NetWorthSnapshot) :
    (getNetWorth db userId).net_worth =
      ((((db.accounts.filter (fun a =>
            a.user_id = userId ∧ (a.type = "checking" ∨ a.type = "savings"))).map
            Account.balance).sum +
        (((db.retirement_accounts.filter (fun r => r.user_id = userId)).map
            RetirementAccount.balance).sum) +
        (((db.assets.filter (fun a => a.user_id = userId)).map Asset.value).sum)) -
       (((db.accounts.filter (fun a =>
            a.user_id = userId ∧
            (a.type = "credit_card" ∨ a.type = "loan" ∨ a.type = "mortgage" ∨
             a.type = "other_debt"))).map (fun a => |a.balance|)).sum)) ∧
    (getNetWorth exampleWealthDb "u1").net_worth = 2500 ∧
    getNetWorth { db with net_worth_snapshots := snaps } userId =
      getNetWorth db userId := by
  have hjs : ∀ xs : List ℚ, jsOrZero (sqlSum xs) = xs.sum := by
    intro xs
    cases xs with
    | nil => simp [sqlSum, jsOrZero]
    | cons x tl =>
      simp only [sqlSum, jsOrZero]
      split
      · next h => simp [h]
      · rfl
  refine ⟨?_, by simp +decide [getNetWorth, assetsQuery, liabilitiesQuery,
    exampleWealthDb, sqlSum, jsOrZero] ; norm_num, rfl⟩
  simp [getNetWorth, assetsQuery, liabilitiesQuery, hjs, List.sum_append,
    add_assoc]

/-! ## Bill analytics (`/analytics/summary` and `/analytics/trends`)

JavaScript numbers divide by zero to Infinity / −Infinity / NaN rather
than raising, so the variance computations are embedded over an explicit
`JSNum` type.  The `.toFixed(1)` calls in the source are display
formatting of these numeric values (`Infinity.toFixed(1)` is the string
"Infinity"); the embedding keeps the numeric value being formatted. -/

/-- A JavaScript double restricted to the values these handlers can
produce: an exact finite value, the two infinities, or NaN. -/
inductive JSNum where
  | num (q : ℚ)
  | inf
  | negInf
  | nan
deriving Repr, DecidableEq

/-- JavaScript subtraction on `JSNum`. -/
def jsSub : JSNum → JSNum → JSNum
  | .num a, .num b => .num (a - b)
  | .nan, _ => .nan
  | _, .nan => .nan
  | .inf, .inf => .nan
  | .inf, _ => .inf
  | .negInf, .negInf => .nan
  | .negInf, _ => .negInf
  | .num _, .inf => .negInf
  | .num _, .negInf => .inf

/-- JavaScript multiplication on `JSNum`. -/
def jsMul : JSNum → JSNum → JSNum
  | .num a, .num b => .num (a * b)
  | .nan, _ => .nan
  | _, .nan => .nan
  | .inf, .inf => .inf
  | .inf, .negInf => .negInf
  | .negInf, .inf => .negInf
  | .negInf, .negInf => .inf
  | .inf, .num b => if b = 0 then .nan else if 0 < b then .inf else .negInf
  | .num a, .inf => if a = 0 then .nan else if 0 < a then .inf else .negInf
  | .negInf, .num b => if b = 0 then .nan else if 0 < b then .negInf else .inf
  | .num a, .negInf => if a = 0 then .nan else if 0 < a then .negInf else .inf

/-- JavaScript division on `JSNum` (division of a nonzero finite value by
zero gives a signed infinity, 0/0 gives NaN). -/
def jsDiv : JSNum → JSNum → JSNum
  | .num a, .num b =>
      if b = 0 then (if a = 0 then .nan else if 0 < a then .inf else .negInf)
      else .num (a / b)
  | .nan, _ => .nan
  | _, .nan => .nan
  | .inf, .inf => .nan
  | .inf, .negInf => .nan
  | .negInf, .inf => .nan
  | .negInf, .negInf => .nan
  | .inf, .num b => if 0 ≤ b then .inf else .negInf
  | .negInf, .num b => if 0 ≤ b then .negInf else .inf
  | .num _, .inf => .num 0
  | .num _, .negInf => .num 0

/-- A row of the `bills` table. -/
structure Bill where
  id : String
  user_id : String
  bill_name : String
  bill_type : String
  target_amount : ℚ
  due_day : Int
  is_active : Int
  notes : String
deriving Repr, DecidableEq

/-- A row of the grouped-payments query in `/analytics/summary`
(`SELECT bill_id, month_year, SUM(amount_paid) as total_paid,
AVG(amount_paid) as avg_paid ... GROUP BY bill_id, month_year`); the
handler's second callback receives these rows. -/
structure GroupedPayment where
  bill_id : String
  month_year : String
  total_paid : ℚ
  avg_paid : ℚ
deriving Repr, DecidableEq

/-- One per-month trend entry of `/analytics/summary`.  `variance_percent`
is the numeric value the source passes to `.toFixed(1)`: the division by
`bill.target_amount` is performed unconditionally. -/
structure TrendEntry where
  month : String
  amount : ℚ
  target : ℚ
  variance : ℚ
  variance_percent : JSNum
deriving Repr, DecidableEq

/-- Build one trend entry from a grouped payment row. -/
def trendEntry (bill : Bill) (p : GroupedPayment) : TrendEntry :=
  { month := p.month_year
    amount := p.total_paid
    target := bill.target_amount
    variance := p.total_paid - bill.target_amount
    variance_percent :=
      jsMul (jsDiv (jsSub (.num p.total_paid) (.num bill.target_amount))
        (.num bill.target_amount)) (.num 100) }

/-- One element of `bills_with_trends`: the bill's fields spread together
with the derived aggregate fields. -/
structure BillWithTrends where
  bill : Bill
  average_paid : ℚ
  variance : ℚ
  variance_percent : JSNum
  trend_data : List TrendEntry
  payments_count : ℕ
deriving Repr, DecidableEq

/-- Per-bill aggregation of `/analytics/summary`: filter the grouped rows
to this bill, build the trend entries, average the monthly totals, and
compute the average variance — here the percentage is guarded by
`bill.target_amount > 0`. -/
def billWithTrends (bill : Bill) (payments : List GroupedPayment) :
    BillWithTrends :=
  let billPayments := payments.filter (fun p => p.bill_id = bill.id)
  let trend := billPayments.map (trendEntry bill)
  let avgPaid : ℚ :=
    if 0 < billPayments.length then
      ((billPayments.map GroupedPayment.total_paid).sum) / billPayments.length
    else 0
  { bill := bill
    average_paid := avgPaid
    variance := avgPaid - bill.target_amount
    variance_percent :=
      if 0 < bill.target_amount then
        jsMul (jsDiv (jsSub (.num avgPaid) (.num bill.target_amount))
          (.num bill.target_amount)) (.num 100)
      else .num 0
    trend_data := trend
    payments_count := billPayments.length }

/-- The JSON body of `/analytics/summary` (the empty-bills early return
omits `total_average_paid` and `overall_variance_percent`, i.e. leaves
them undefined; the embedding returns 0 there). -/
structure AnalyticsSummary where
  total_target_monthly : ℚ
  total_average_paid : ℚ
  overall_variance : ℚ
  overall_variance_percent : JSNum
  bills_with_trends : List BillWithTrends
deriving Repr, DecidableEq

/-- `/analytics/summary` from the row sets of its two queries: the user's
active bills and the grouped payment rows. -/
def analyticsSummary (bills : List Bill) (payments : List GroupedPayment) :
    AnalyticsSummary :=
  if bills.isEmpty then
    { total_target_monthly := 0
      total_average_paid := 0
      overall_variance := 0
      overall_variance_percent := .num 0
      bills_with_trends := [] }
  else
    let total_target := (bills.map Bill.target_amount).sum
    let billsWithTrends := bills.map (fun b => billWithTrends b payments)
    let totalAvgPaid := (billsWithTrends.map BillWithTrends.average_paid).sum
    { total_target_monthly := total_target
      total_average_paid := totalAvgPaid
      overall_variance := totalAvgPaid - total_target
      overall_variance_percent :=
        if 0 < total_target then
          jsMul (jsDiv (jsSub (.num totalAvgPaid) (.num total_target))
            (.num total_target)) (.num 100)
        else .num 0
      bills_with_trends := billsWithTrends }

/-- A row of the monthly-totals query in `/analytics/trends`
(`SELECT month_year, SUM(amount_paid) as total_paid ... GROUP BY
month_year`). -/
structure MonthlyTotal where
  month_year : String
  total_paid : ℚ
deriving Repr, DecidableEq

/-- One entry of the `/analytics/trends` response; the percentage divides
by the summed target unconditionally. -/
structure MonthlyTrendEntry where
  month : String
  actual : ℚ
  target : ℚ
  variance : ℚ
  variance_percent : JSNum
deriving Repr, DecidableEq

/-- `/analytics/trends` from the row sets of its two queries. -/
def analyticsTrends (bills : List Bill) (monthlyTotals : List MonthlyTotal) :
    List MonthlyTrendEntry :=
  if bills.isEmpty then []
  else
    let totalTarget := (bills.map Bill.target_amount).sum
    monthlyTotals.map (fun m =>
      { month := m.month_year
        actual := m.total_paid
        target := totalTarget
        variance := m.total_paid - totalTarget
        variance_percent :=
          jsMul (jsDiv (jsSub (.num m.total_paid) (.num totalTarget))
            (.num totalTarget)) (.num 100) })

/-- A concrete active bill with target amount 0. -/
def zeroTargetBill : Bill :=
  { id := "b1", user_id := "u1", bill_name := "Gym", bill_type := "other",
    target_amount := 0, due_day := 1, is_active := 1, notes := "" }

/-- A concrete grouped payment row of 100 for that bill. -/
def zeroTargetPayment : GroupedPayment :=
  { bill_id := "b1", month_year := "2025-01", total_paid := 100,
    avg_paid := 100 }

/-- The unguarded percentage formula evaluates to the exact rational when
the target is nonzero. -/
theorem jsVariancePercent_num (a t : ℚ) (ht : t ≠ 0) :
    jsMul (jsDiv (jsSub (.num a) (.num t)) (.num t)) (.num 100) =
      .num ((a - t) / t * 100) := by
  simp [jsSub, jsDiv, jsMul, ht]

/-- The unguarded percentage formula evaluates to Infinity when the target
is zero and the actual amount is positive. -/
theorem jsVariancePercent_inf (a : ℚ) (ha : 0 < a) :
    jsMul (jsDiv (jsSub (.num a) (.num 0)) (.num 0)) (.num 100) =
      JSNum.inf := by
  simp only [jsSub, jsDiv, jsMul, sub_zero]
  rw [if_pos trivial, if_neg ha.ne', if_pos ha]
  norm_num

/-- C3 counterexample: for an active bill with target amount 0 and a
recorded monthly payment of 100, the per-month trend entry of
`/analytics/summary` and the `/analytics/trends` entry both report a
percentage variance of Infinity (a division-by-zero result), not 0. -/
theorem analytics_variancePercent_counterexample :
    ((analyticsSummary [zeroTargetBill] [zeroTargetPayment]).bills_with_trends.map
        (fun b => b.trend_data.map TrendEntry.variance_percent)) = [[JSNum.inf]] ∧
    ((analyticsTrends [zeroTargetBill]
        [{ month_year := "2025-01", total_paid := 100 }]).map
        MonthlyTrendEntry.variance_percent) = [JSNum.inf] ∧
    JSNum.inf ≠ JSNum.num 0 := by
  refine ⟨?_, ?_, by decide⟩
  · norm_num [analyticsSummary, billWithTrends, trendEntry, zeroTargetBill,
      zeroTargetPayment, jsSub, jsDiv, jsMul, List.filter]
  · norm_num [analyticsTrends, zeroTargetBill, jsSub, jsDiv, jsMul]

/-- C3 amended: percentage variance equals (actual − target)/target × 100
wherever the target is nonzero, and the zero-target guard (report 0)
applies to the per-bill average `variance_percent` and the overall
`variance_percent` of `/analytics/summary` only; the per-month trend
entries of `/analytics/summary` and the `/analytics/trends` entries divide
by the target unconditionally, so a zero target with a positive actual
amount there yields Infinity rather than 0. -/
theorem analytics_variancePercent_amended (bill : Bill)
    (payments : List GroupedPayment) (bills : List Bill)
    (monthlyTotals : List MonthlyTotal) :
    (¬ 0 < bill.target_amount →
      (billWithTrends bill payments).variance_percent = .num 0) ∧
    (0 < bill.target_amount →
      (billWithTrends bill payments).variance_percent =
        .num (((billWithTrends bill payments).average_paid -
          bill.target_amount) / bill.target_amount * 100)) ∧
    (∀ e ∈ (billWithTrends bill payments).trend_data,
      (bill.target_amount ≠ 0 →
        e.variance_percent =
          .num ((e.amount - bill.target_amount) / bill.target_amount * 100)) ∧
      (bill.target_amount = 0 → 0 < e.amount →
        e.variance_percent = JSNum.inf)) ∧
    (bills ≠ [] →
      (¬ 0 < (bills.map Bill.target_amount).sum →
        (analyticsSummary bills payments).overall_variance_percent = .num 0) ∧
      (0 < (bills.map Bill.target_amount).sum →
        (analyticsSummary bills payments).overall_variance_percent =
          .num (((analyticsSummary bills payments).total_average_paid -
            (bills.map Bill.target_amount).sum) /
            (bills.map Bill.target_amount).sum * 100))) ∧
    (∀ m ∈ analyticsTrends bills monthlyTotals,
      ((bills.map Bill.target_amount).sum ≠ 0 →
        m.variance_percent =
          .num ((m.actual - (bills.map Bill.target_amount).sum) /
            (bills.map Bill.target_amount).sum * 100)) ∧
      ((bills.map Bill.target_amount).sum = 0 → 0 < m.actual →
        m.variance_percent = JSNum.inf)) := by
  refine ⟨?_, ?_, ?_, ?_, ?_⟩
  · intro h
    simp [billWithTrends, h]
  · intro h
    simp only [billWithTrends, if_pos h]
    exact jsVariancePercent_num _ _ h.ne'
  · intro e he
    simp only [billWithTrends, List.mem_map] at he
    obtain ⟨p, _, rfl⟩ := he
    refine ⟨fun ht => ?_, fun ht ha => ?_⟩
    · simpa [trendEntry] using jsVariancePercent_num p.total_paid _ ht
    · simp only [trendEntry] at ha ⊢
      rw [ht] at *
      exact jsVariancePercent_inf p.total_paid ha
  · intro hb
    have hne : ¬ bills.isEmpty := by simpa [List.isEmpty_iff] using hb
    constructor
    · intro h
      simp [analyticsSummary, hne, h]
    · intro h
      simp only [analyticsSummary, hne, Bool.false_eq_true, if_false, if_pos h]
      exact jsVariancePercent_num _ _ h.ne'
  · intro m hm
    by_cases hb : bills.isEmpty
    · simp [analyticsTrends, hb] at hm
    · simp only [analyticsTrends, hb, Bool.false_eq_true, if_false,
        List.mem_map] at hm
      obtain ⟨mt, _, rfl⟩ := hm
      refine ⟨fun ht => ?_, fun ht ha => ?_⟩
      · simpa using jsVariancePercent_num mt.total_paid _ ht
      · simp only at ha ⊢
        rw [ht] at *
        exact jsVariancePercent_inf mt.total_paid ha

/-- Witness for the amended C3 theorem: a zero-target bill reports average
variance 0 but a trend-entry variance of Infinity, and a target of 200
with a payment of 100 reports −50%. -/
theorem analytics_variancePercent_amended_witness :
    (billWithTrends zeroTargetBill [zeroTargetPayment]).variance_percent =
      JSNum.num 0 ∧
    (trendEntry zeroTargetBill zeroTargetPayment).variance_percent =
      JSNum.inf ∧
    (billWithTrends
      { zeroTargetBill with target_amount := 200 }
      [zeroTargetPayment]).variance_percent = JSNum.num (-50) := by
  have h0 := analytics_variancePercent_amended zeroTargetBill
    [zeroTargetPayment] [] []
  have h200 := analytics_variancePercent_amended
    { zeroTargetBill with target_amount := 200 } [zeroTargetPayment] [] []
  refine ⟨h0.1 (by norm_num [zeroTargetBill]), ?_, ?_⟩
  · have hmem : trendEntry zeroTargetBill zeroTargetPayment ∈
        (billWithTrends zeroTargetBill [zeroTargetPayment]).trend_data := by
      simp [billWithTrends, zeroTargetBill, zeroTargetPayment, List.filter]
    exact (h0.2.2.1 _ hmem).2 (by norm_num [zeroTargetBill])
      (by norm_num [trendEntry, zeroTargetBill, zeroTargetPayment])
  · have := h200.2.1 (by norm_num [zeroTargetBill])
    rw [this]
    norm_num [billWithTrends, zeroTargetBill, zeroTargetPayment, List.filter]

/-! ## Budget analysis (`GET /analysis` in `routes/transactions.js`)

The handler receives the grouped expense-category rows and the total
income for the current month and produces a list of suggestion records.
The human-readable `message` strings of the suggestions are display
templating and are not modeled. -/

/-- A row of the expense-category query (`SELECT category, SUM(amount) as
total, COUNT(*) as transaction_count, AVG(amount) as avg_transaction ...
GROUP BY category`). -/
structure ExpenseCat where
  category : String
  total : ℚ
  transaction_count : ℕ
  avg_transaction : ℚ
deriving Repr, DecidableEq

/-- A suggestion record pushed by the analysis rules. -/
structure Suggestion where
  stype : String
  category : String
  potential_savings : ℚ
deriving Repr, DecidableEq

/-- Rule 1 on a single category row: over 30% of income flags
`high_spending` with 15% of the category total as potential savings. -/
def rule1Entry (totalIncome : ℚ) (exp : ExpenseCat) : Option Suggestion :=
  let percentage := exp.total / totalIncome * 100
  if 30 < percentage then
    some { stype := "high_spending", category := exp.category,
           potential_savings := exp.total * (15 / 100) }
  else none

/-- Rule 1 runs only when total income is positive. -/
def rule1 (totalIncome : ℚ) (expenses : List ExpenseCat) : List Suggestion :=
  if 0 < totalIncome then expenses.filterMap (rule1Entry totalIncome) else []

/-- Rule 2 on a single category row: more than 10 transactions averaging
under $50 flags `subscription_check` with 20% of the total. -/
def rule2Entry (exp : ExpenseCat) : Option Suggestion :=
  if 10 < exp.transaction_count ∧ exp.avg_transaction < 50 then
    some { stype := "subscription_check", category := exp.category,
           potential_savings := exp.total * (20 / 100) }
  else none

/-- Rule 2 over all category rows. -/
def rule2 (expenses : List ExpenseCat) : List Suggestion :=
  expenses.filterMap rule2Entry

/-- Rule 3: actual savings below the recommended 20% of income produces a
`savings_goal` suggestion sized to the shortfall. -/
def rule3 (totalIncome totalExpenses : ℚ) : List Suggestion :=
  let recommended_savings := totalIncome * (20 / 100)
  let actual_savings := totalIncome - totalExpenses
  if actual_savings < recommended_savings then
    [{ stype := "savings_goal", category := "general",
       potential_savings := recommended_savings - actual_savings }]
  else []

/-- The suggestion list of `GET /analysis`: the three rules applied in
source order, with total expenses summed from the category rows. -/
def analysisSuggestions (expenses : List ExpenseCat) (totalIncome : ℚ) :
    List Suggestion :=
  let totalExpenses := (expenses.map ExpenseCat.total).sum
  rule1 totalIncome expenses ++ rule2 expenses ++
    rule3 totalIncome totalExpenses

/-- The spec's worked example category rows: $3,500 of dining and $2,000
of groceries for a month with $10,000 income. -/
def diningCat : ExpenseCat :=
  { category := "dining", total := 3500, transaction_count := 5,
    avg_transaction := 700 }

/-- The non-triggering example category. -/
def groceriesCat : ExpenseCat :=
  { category := "groceries", total := 2000, transaction_count := 5,
    avg_transaction := 400 }

/-- C4: when total income is positive, a category row yields a
`high_spending` suggestion iff its total exceeds 30% of total income, the
suggestion's potential savings is 15% of the category total, every
`high_spending` suggestion in the full response comes from Rule 1, and on
the spec's examples a $3,500 category against $10,000 income triggers the
rule while a $2,000 category does not. -/
theorem highSpending_rule_spec (totalIncome : ℚ) (exp : ExpenseCat)
    (expenses : List ExpenseCat) (h : 0 < totalIncome) :
    ((rule1Entry totalIncome exp).isSome ↔
      30 / 100 * totalIncome < exp.total) ∧
    (∀ s, rule1Entry totalIncome exp = some s →
      s.stype = "high_spending" ∧ s.category = exp.category ∧
      s.potential_savings = 15 / 100 * exp.total) ∧
    (∀ s ∈ analysisSuggestions expenses totalIncome,
      s.stype = "high_spending" → s ∈ rule1 totalIncome expenses) ∧
    (rule1Entry 10000 diningCat).isSome = true ∧
    (rule1Entry 10000 groceriesCat).isSome = false := by
  refine ⟨?_, ?_, ?_, by norm_num [rule1Entry, diningCat],
    by norm_num [rule1Entry, groceriesCat]⟩
  · have hiff : 30 < exp.total / totalIncome * 100 ↔
        30 / 100 * totalIncome < exp.total := by
      rw [div_mul_eq_mul_div, lt_div_iff₀ h]
      constructor <;> intro hx <;> nlinarith
    simp only [rule1Entry]
    split
    · next hcond => simpa using hiff.mp hcond
    · next hcond => simpa using mt hiff.mpr hcond
  · intro s hs
    simp only [rule1Entry] at hs
    split at hs
    · cases hs
      refine ⟨rfl, rfl, by ring⟩
    · cases hs
  · intro s hs htype
    simp only [analysisSuggestions, List.mem_append] at hs
    rcases hs with (hs | hs) | hs
    · exact hs
    · exfalso
      simp only [rule2, List.mem_filterMap, rule2Entry] at hs
      obtain ⟨e, _, he⟩ := hs
      split at he
      · cases he
        simp at htype
      · cases he
    · exfalso
      simp only [rule3] at hs
      split at hs
      · simp only [List.mem_singleton] at hs
        subst hs
        simp at htype
      · simp at hs

/-- Witness for C4: instantiated at income $10,000 and the $3,500 dining
category. -/
theorem highSpending_rule_spec_witness :
    (rule1Entry 10000 diningCat).isSome = true ∧
    (rule1Entry 10000 groceriesCat).isSome = false := by
  have h := highSpending_rule_spec 10000 diningCat [] (by norm_num)
  exact ⟨h.2.2.2.1, h.2.2.2.2⟩

/-- Every Rule-1 suggestion is typed `high_spending`. -/
theorem rule1_stype (totalIncome : ℚ) (expenses : List ExpenseCat) :
    ∀ s ∈ rule1 totalIncome expenses, s.stype = "high_spending" := by
  intro s hs
  simp only [rule1] at hs
  split at hs
  · simp only [List.mem_filterMap, rule1Entry] at hs
    obtain ⟨e, _, he⟩ := hs
    split at he
    · cases he
      rfl
    · cases he
  · simp at hs

/-- Every Rule-2 suggestion is typed `subscription_check`. -/
theorem rule2_stype (expenses : List ExpenseCat) :
    ∀ s ∈ rule2 expenses, s.stype = "subscription_check" := by
  intro s hs
  simp only [rule2, List.mem_filterMap, rule2Entry] at hs
  obtain ⟨e, _, he⟩ := hs
  split at he
  · cases he
    rfl
  · cases he

/-- A month with $4,500 of expenses against $5,000 of income. -/
def spendCat : ExpenseCat :=
  { category := "general", total := 4500, transaction_count := 3,
    avg_transaction := 1500 }

/-- C5: a `savings_goal` suggestion is produced iff actual savings (total
income − total expenses) is below 20% of total income, its potential
savings equals the shortfall 20% × income − actual savings, and on the
spec's example (income $5,000, expenses $4,500) Rule 3 produces exactly
one suggestion sized to $500. -/
theorem savingsGoal_rule_spec (expenses : List ExpenseCat)
    (totalIncome : ℚ) :
    ((∃ s ∈ analysisSuggestions expenses totalIncome,
        s.stype = "savings_goal") ↔
      totalIncome - (expenses.map ExpenseCat.total).sum <
        20 / 100 * totalIncome) ∧
    (∀ s ∈ analysisSuggestions expenses totalIncome,
      s.stype = "savings_goal" →
        s.potential_savings =
          20 / 100 * totalIncome -
            (totalIncome - (expenses.map ExpenseCat.total).sum)) ∧
    rule3 5000 4500 =
      [{ stype := "savings_goal", category := "general",
         potential_savings := 500 }] := by
  have hcond : ∀ s, s ∈ analysisSuggestions expenses totalIncome →
      s.stype = "savings_goal" →
      s ∈ rule3 totalIncome (expenses.map ExpenseCat.total).sum := by
    intro s hs hgoal
    simp only [analysisSuggestions, List.mem_append] at hs
    rcases hs with (hs | hs) | hs
    · have := rule1_stype totalIncome expenses s hs
      rw [this] at hgoal
      exact absurd hgoal (by decide)
    · have := rule2_stype expenses s hs
      rw [this] at hgoal
      exact absurd hgoal (by decide)
    · exact hs
  refine ⟨⟨?_, ?_⟩, ?_, ?_⟩
  · rintro ⟨s, hs, hgoal⟩
    have hmem := hcond s hs hgoal
    simp only [rule3] at hmem
    split at hmem
    · next hlt => linarith [hlt]
    · simp at hmem
  · intro hlt
    have hlt' : totalIncome - (expenses.map ExpenseCat.total).sum <
        totalIncome * (20 / 100) := by linarith
    refine ⟨⟨"savings_goal", "general", totalIncome * (20 / 100) -
      (totalIncome - (expenses.map ExpenseCat.total).sum)⟩, ?_, rfl⟩
    simp [analysisSuggestions, rule3, hlt']
  · intro s hs hgoal
    have hmem := hcond s hs hgoal
    simp only [rule3] at hmem
    split at hmem
    · simp only [List.mem_singleton] at hmem
      subst hmem
      simp only
      ring
    · simp at hmem
  · norm_num [rule3, Suggestion.mk.injEq]

/-- Witness for C5: on the $5,000 / $4,500 example the full analysis
produces a savings-goal suggestion sized to $500. -/
theorem savingsGoal_rule_spec_witness :
    (∃ s ∈ analysisSuggestions [spendCat] 5000,
      s.stype = "savings_goal") ∧
    ((⟨"savings_goal", "general", (500 : ℚ)⟩ : Suggestion)).potential_savings =
      20 / 100 * 5000 - (5000 - ([spendCat].map ExpenseCat.total).sum) := by
  have h := savingsGoal_rule_spec [spendCat] 5000
  refine ⟨h.1.mpr (by norm_num [spendCat]), ?_⟩
  have hmem : ((⟨"savings_goal", "general", (500 : ℚ)⟩ : Suggestion)) ∈
      analysisSuggestions [spendCat] 5000 := by
    simp only [analysisSuggestions, rule1, rule2, rule3, rule1Entry,
      rule2Entry, spendCat, List.filterMap, List.map, List.sum_cons,
      List.sum_nil]
    norm_num
  exact h.2.1 _ hmem rfl

/-! ## Bills CRUD (`part_000`: PUT /:id, DELETE /:id, GET /:id/payments)

The delete handler first runs `DELETE FROM bill_payments WHERE bill_id = ?`
with no user filter, then deletes the bill scoped to the requesting user;
the payments listing runs `SELECT * FROM bill_payments WHERE bill_id = ?`
with no user filter at all. -/

/-- A row of the `bill_payments` table. -/
structure BillPayment where
  id : String
  bill_id : String
  user_id : String
  amount_paid : ℚ
  payment_date : String
  month_year : String
  notes : String
deriving Repr, DecidableEq

/-- The two tables the bills routes touch. -/
structure BillsDb where
  bills : List Bill
  bill_payments : List BillPayment
deriving Repr, DecidableEq

/-- Whether a bills row matches `WHERE id = ? AND user_id = ?`. -/
def billMatch (userId id : String) (b : Bill) : Prop :=
  b.id = id ∧ b.user_id = userId

instance (userId id : String) (b : Bill) : Decidable (billMatch userId id b) :=
  inferInstanceAs (Decidable (_ ∧ _))

/-- `DELETE /:id`: delete the bill's payments (scoped only by bill id),
then delete the bill scoped by user; 404 if the bill delete matched no
row.  Returns (status, new database state). -/
def deleteBill (db : BillsDb) (userId id : String) : ℕ × BillsDb :=
  let payments' := db.bill_payments.filter (fun p => ¬ p.bill_id = id)
  let changes := (db.bills.filter (billMatch userId id)).length
  if changes = 0 then
    (404, { bills := db.bills, bill_payments := payments' })
  else
    (200, { bills := db.bills.filter (fun b => ¬ billMatch userId id b),
            bill_payments := payments' })

/-- The request body of `PUT /:id`. -/
structure BillUpdateBody where
  bill_name : String
  bill_type : String
  target_amount : ℚ
  due_day : Int
  is_active : Bool
  notes : String
deriving Repr, DecidableEq

/-- Apply the `UPDATE bills SET ...` assignments to one row
(`is_active` is stored as `is_active ? 1 : 0`). -/
def applyBillUpdate (body : BillUpdateBody) (b : Bill) : Bill :=
  { b with
    bill_name := body.bill_name
    bill_type := body.bill_type
    target_amount := body.target_amount
    due_day := body.due_day
    is_active := if body.is_active then 1 else 0
    notes := body.notes }

/-- `PUT /:id`: update the row scoped by id and user; 404 (state
unchanged) when no row matched. -/
def updateBill (db : BillsDb) (userId id : String) (body : BillUpdateBody) :
    ℕ × BillsDb :=
  let changes := (db.bills.filter (billMatch userId id)).length
  if changes = 0 then (404, db)
  else
    (200, { db with bills := db.bills.map (fun b =>
      if billMatch userId id b then applyBillUpdate body b else b) })

/-- The row lookup of `GET /:id` (`SELECT * FROM bills WHERE id = ? AND
user_id = ?`). -/
def getBill (db : BillsDb) (userId id : String) : Option Bill :=
  (db.bills.filter (billMatch userId id)).head?

/-- Insert a payment into a date-descending list (used to model
`ORDER BY payment_date DESC`). -/
def insertDesc (p : BillPayment) : List BillPayment → List BillPayment
  | [] => [p]
  | q :: rest =>
      if q.payment_date ≤ p.payment_date then p :: q :: rest
      else q :: insertDesc p rest

/-- Sort payments by payment date, descending. -/
def sortByPaymentDateDesc : List BillPayment → List BillPayment
  | [] => []
  | p :: rest => insertDesc p (sortByPaymentDateDesc rest)

/-- `GET /:id/payments`: every payment row with the given bill id,
date-descending, optionally limited — the requesting user's id is never
used. -/
def getBillPayments (db : BillsDb) (bill_id : String) (limit : Option ℕ) :
    List BillPayment :=
  let rows := sortByPaymentDateDesc
    (db.bill_payments.filter (fun p => p.bill_id = bill_id))
  match limit with
  | none => rows
  | some n => rows.take n

/-- User B's bill in the two-user scenario. -/
def billOfB : Bill :=
  { id := "bB", user_id := "B", bill_name := "Rent", bill_type := "housing",
    target_amount := 1200, due_day := 1, is_active := 1, notes := "" }

/-- User B's payment on that bill. -/
def paymentOfB : BillPayment :=
  { id := "pB", bill_id := "bB", user_id := "B", amount_paid := 1200,
    payment_date := "2025-01-01", month_year := "2025-01", notes := "" }

/-- A two-user database: the only rows belong to user B. -/
def crossUserDb : BillsDb :=
  { bills := [billOfB], bill_payments := [paymentOfB] }

/-- C7: evaluation at the failing input.  With A and B distinct users and
the only rows a bill and payment owned by B, a payments listing issued
for B's bill id under A's identity returns B's payment row (the handler
never consults the requesting user), and A's delete request answers 404
for the bill yet removes B's payment row from the database. -/
theorem crossUser_ownership_violation :
    getBillPayments crossUserDb "bB" none = [paymentOfB] ∧
    paymentOfB.user_id = "B" ∧ "A" ≠ "B" ∧
    (deleteBill crossUserDb "A" "bB").1 = 404 ∧
    (deleteBill crossUserDb "A" "bB").2.bill_payments = [] ∧
    crossUserDb.bill_payments = [paymentOfB] := by
  exact ⟨rfl, rfl, by decide, rfl, rfl, rfl⟩

/-- C8 counterexample: deleting bill id "bB" as user A matches zero bills
rows for A, so the response is 404, yet the bill_payments row count drops
from 1 to 0 — the database state is not left unchanged. -/
theorem deleteBill_404_state_change_counterexample :
    (deleteBill crossUserDb "A" "bB").1 = 404 ∧
    (deleteBill crossUserDb "A" "bB").2.bill_payments.length = 0 ∧
    crossUserDb.bill_payments.length = 1 := by
  exact ⟨rfl, rfl, rfl⟩

/-- C8 amended: when zero bills rows match, update and delete answer 404
and leave the bills table unchanged, and the update leaves the whole
database unchanged; the delete however always removes every bill_payments
row carrying the requested bill id (rows that can exist only when the id
is another user's bill or an orphaned payment), so the full state is
unchanged exactly when no payment row carries that id — in particular
deleting an id present in neither table leaves both row counts unchanged.
After a successful update, re-reading the bill returns exactly the
submitted field values (with is_active stored as 1/0). -/
theorem deleteBill_updateBill_amended (db : BillsDb) (userId id : String)
    (body : BillUpdateBody) :
    ((∀ b ∈ db.bills, ¬ billMatch userId id b) →
      (deleteBill db userId id).1 = 404 ∧
      (deleteBill db userId id).2.bills = db.bills ∧
      ((∀ p ∈ db.bill_payments, p.bill_id ≠ id) →
        (deleteBill db userId id).2 = db) ∧
      updateBill db userId id body = (404, db)) ∧
    ((∃ b ∈ db.bills, billMatch userId id b) →
      (updateBill db userId id body).1 = 200 ∧
      ∃ bill', getBill (updateBill db userId id body).2 userId id =
          some bill' ∧
        bill'.bill_name = body.bill_name ∧
        bill'.bill_type = body.bill_type ∧
        bill'.target_amount = body.target_amount ∧
        bill'.due_day = body.due_day ∧
        bill'.is_active = (if body.is_active then 1 else 0) ∧
        bill'.notes = body.notes) := by
  constructor
  · intro h404
    have hnil : db.bills.filter (billMatch userId id) = [] := by
      rw [List.filter_eq_nil_iff]
      intro b hb
      simpa using h404 b hb
    refine ⟨?_, ?_, ?_, ?_⟩
    · simp [deleteBill, hnil]
    · simp [deleteBill, hnil]
    · intro hp
      have hpay : db.bill_payments.filter
          (fun p => !decide (p.bill_id = id)) = db.bill_payments := by
        rw [List.filter_eq_self]
        intro p hpmem
        simpa using hp p hpmem
      simp [deleteBill, hnil, hpay]
    · simp [updateBill, hnil]
  · intro hex
    have hne : db.bills.filter (billMatch userId id) ≠ [] := by
      obtain ⟨b, hb, hmb⟩ := hex
      intro hnil
      rw [List.filter_eq_nil_iff] at hnil
      exact absurd hmb (by simpa using hnil b hb)
    have h200 : ¬ ((db.bills.filter (billMatch userId id)).length = 0) := by
      simpa [List.length_eq_zero] using hne
    have hupdate : updateBill db userId id body =
        (200, { db with bills := db.bills.map (fun b =>
          if billMatch userId id b then applyBillUpdate body b else b) }) := by
      simp [updateBill, h200]
    refine ⟨by rw [hupdate], ?_⟩
    rw [hupdate]
    simp only [getBill]
    have hfields : ∀ x ∈ (db.bills.map (fun b =>
        if billMatch userId id b then applyBillUpdate body b else b)).filter
          (billMatch userId id),
        x.bill_name = body.bill_name ∧ x.bill_type = body.bill_type ∧
        x.target_amount = body.target_amount ∧ x.due_day = body.due_day ∧
        x.is_active = (if body.is_active then 1 else 0) ∧
        x.notes = body.notes := by
      intro x hx
      rw [List.mem_filter] at hx
      obtain ⟨hx1, hx2⟩ := hx
      rw [List.mem_map] at hx1
      obtain ⟨b, hb, rfl⟩ := hx1
      by_cases hmb : billMatch userId id b
      · rw [if_pos hmb]
        exact ⟨rfl, rfl, rfl, rfl, rfl, rfl⟩
      · rw [if_neg hmb] at hx2
        exact absurd (of_decide_eq_true hx2) hmb
    have hne' : (db.bills.map (fun b =>
        if billMatch userId id b then applyBillUpdate body b else b)).filter
          (billMatch userId id) ≠ [] := by
      obtain ⟨b, hb, hmb⟩ := hex
      have hmem : (if billMatch userId id b then applyBillUpdate body b
          else b) ∈ (db.bills.map (fun b =>
          if billMatch userId id b then applyBillUpdate body b else b)) :=
        List.mem_map_of_mem _ hb
      have hcond : billMatch userId id
          (if billMatch userId id b then applyBillUpdate body b else b) := by
        rw [if_pos hmb]
        exact hmb
      exact List.ne_nil_of_mem (List.mem_filter.mpr ⟨hmem, by simpa using hcond⟩)
    refine ⟨_, List.head?_eq_head hne', hfields _ (List.head_mem hne')⟩

/-- A concrete update body for exercising the successful-update branch. -/
def exampleBody : BillUpdateBody :=
  { bill_name := "Rent2", bill_type := "housing", target_amount := 1300,
    due_day := 2, is_active := false, notes := "n" }

/-- Witness for the amended C8 theorem: deleting an id present in neither
table answers 404 and leaves the state unchanged, and updating an
existing bill answers 200. -/
theorem deleteBill_updateBill_amended_witness :
    ((deleteBill crossUserDb "A" "nope").1 = 404 ∧
     (deleteBill crossUserDb "A" "nope").2 = crossUserDb) ∧
    (updateBill crossUserDb "B" "bB" exampleBody).1 = 200 := by
  have h1 := deleteBill_updateBill_amended crossUserDb "A" "nope" exampleBody
  have h2 := deleteBill_updateBill_amended crossUserDb "B" "bB" exampleBody
  have hA : ∀ b ∈ crossUserDb.bills, ¬ billMatch "A" "nope" b := by decide
  have hP : ∀ p ∈ crossUserDb.bill_payments, p.bill_id ≠ "nope" := by decide
  have hex : ∃ b ∈ crossUserDb.bills, billMatch "B" "bB" b := by decide
  exact ⟨⟨(h1.1 hA).1, (h1.1 hA).2.2.1 hP⟩, (h2.2 hex).1⟩

/-! ## AI provider fallback (`LLMService.generateCompletion`)

The outcome of each provider's HTTP call is a parameter (`call`), tokens
come from the user's decrypted token map, and the `last_used` updates
performed are returned alongside the result. -/

/-- What `generateCompletion` returns on success (`tokenCount` is the
source's rough `text.length / 4` estimate). -/
structure CompletionOk where
  text : String
  provider : String
  model : String
  tokenCount : ℚ
deriving Repr, DecidableEq

/-- The fixed priority order of `generateCompletion`. -/
def providerPriority : List String :=
  ["groq", "huggingface", "together", "openrouter"]

/-- The aggregated error thrown when every attempted provider failed (or
none was attempted). -/
def aggregatedError : Option String → String
  | some e => "All AI providers failed. Last error: " ++ e
  | none => "No AI tokens configured. Please add at least one token in AI Settings."

/-- The provider loop of `generateCompletion`: skip providers without a
token, return on the first successful call (recording the `last_used`
update for exactly that provider), remember the last error otherwise.
The second component lists the providers marked as last-used. -/
def attemptProviders (tokens : String → Option String)
    (call : String → String → Except String String) (model : String) :
    List String → Option String → Except String CompletionOk × List String
  | [], lastError => (.error (aggregatedError lastError), [])
  | p :: rest, lastError =>
      match tokens p with
      | none => attemptProviders tokens call model rest lastError
      | some tok =>
          match call p tok with
          | .ok text =>
              (.ok { text := text.trim, provider := p, model := model,
                     tokenCount := text.length / 4 }, [p])
          | .error e => attemptProviders tokens call model rest (some e)

/-- `generateCompletion`: attempt the four providers in priority order. -/
def generateCompletion (tokens : String → Option String)
    (call : String → String → Except String String) (model : String) :
    Except String CompletionOk × List String :=
  attemptProviders tokens call model providerPriority none

/-- A provider is skipped or fails: it has no token, or its call errors. -/
def skipsOrFails (tokens : String → Option String)
    (call : String → String → Except String String) (p : String) : Prop :=
  tokens p = none ∨ ∃ t, tokens p = some t ∧ ∃ e, call p t = .error e

/-- A successful head provider short-circuits the loop regardless of the
accumulated error. -/
theorem attemptProviders_head_ok (tokens : String → Option String)
    (call : String → String → Except String String) (model : String)
    (p : String) (rest : List String) (le : Option String) (t s : String)
    (htok : tokens p = some t) (hcall : call p t = .ok s) :
    attemptProviders tokens call model (p :: rest) le =
      (.ok { text := s.trim, provider := p, model := model,
             tokenCount := s.length / 4 }, [p]) := by
  simp [attemptProviders, htok, hcall]

/-- A prefix of skipped-or-failing providers is consumed, only moving the
accumulated error. -/
theorem attemptProviders_skip_prefix (tokens : String → Option String)
    (call : String → String → Except String String) (model : String)
    (l1 : List String) (rest : List String) (le : Option String)
    (hfail : ∀ q ∈ l1, skipsOrFails tokens call q) :
    ∃ le', attemptProviders tokens call model (l1 ++ rest) le =
      attemptProviders tokens call model rest le' := by
  induction l1 generalizing le with
  | nil => exact ⟨le, rfl⟩
  | cons q l1' ih =>
      have hq := hfail q (List.mem_cons_self q l1')
      have hrest : ∀ r ∈ l1', skipsOrFails tokens call r := fun r hr =>
        hfail r (List.mem_cons_of_mem q hr)
      rcases hq with hnone | ⟨t, htok, e, herr⟩
      · simpa [attemptProviders, hnone] using ih le hrest
      · simpa [attemptProviders, htok, herr] using ih (some e) hrest

/-- If every provider in the list skips or fails, the loop ends in the
aggregated error with no last-used marks. -/
theorem attemptProviders_all_fail (tokens : String → Option String)
    (call : String → String → Except String String) (model : String)
    (l : List String) (le : Option String)
    (hfail : ∀ q ∈ l, skipsOrFails tokens call q) :
    ∃ le', attemptProviders tokens call model l le =
      (.error (aggregatedError le'), []) := by
  obtain ⟨le', h⟩ := attemptProviders_skip_prefix tokens call model l [] le
    hfail
  rw [List.append_nil] at h
  exact ⟨le', by rw [h]; rfl⟩

/-- With no tokens configured at all, the accumulated error never changes. -/
theorem attemptProviders_no_tokens (tokens : String → Option String)
    (call : String → String → Except String String) (model : String)
    (l : List String) (le : Option String) (hnone : ∀ q, tokens q = none) :
    attemptProviders tokens call model l le =
      (.error (aggregatedError le), []) := by
  induction l with
  | nil => rfl
  | cons q l' ih => simp [attemptProviders, hnone q, ih]

/-- C6: `generateCompletion` attempts the configured providers in the
fixed order groq, huggingface, together, openrouter, skipping providers
without a token; it returns the first successful provider's result
(trimmed) and marks exactly that provider as last-used; if every provider
skips or fails it returns a single aggregated error and marks no
provider, and with no tokens configured at all the error is the
no-tokens message. -/
theorem generateCompletion_spec (tokens : String → Option String)
    (call : String → String → Except String String) (model : String) :
    (∀ l1 p l2 t s, providerPriority = l1 ++ p :: l2 →
      (∀ q ∈ l1, skipsOrFails tokens call q) →
      tokens p = some t → call p t = .ok s →
      generateCompletion tokens call model =
        (.ok { text := s.trim, provider := p, model := model, tokenCount := s.length / 4 }, [p])) ∧
    ((∀ q ∈ providerPriority, skipsOrFails tokens call q) →
      ∃ msg, generateCompletion tokens call model = (.error msg, [])) ∧
    ((∀ q, tokens q = none) →
      generateCompletion tokens call model =
        (.error (aggregatedError none), [])) := by
  refine ⟨?_, ?_, ?_⟩
  · intro l1 p l2 t s horder hskip htok hcall
    rw [generateCompletion, horder]
    obtain ⟨le', h⟩ := attemptProviders_skip_prefix tokens call model l1
      (p :: l2) none hskip
    rw [h]
    exact attemptProviders_head_ok tokens call model p l2 le' t s htok hcall
  · intro hfail
    obtain ⟨le', h⟩ := attemptProviders_all_fail tokens call model
      providerPriority none hfail
    exact ⟨aggregatedError le', h⟩
  · intro hnone
    exact attemptProviders_no_tokens tokens call model providerPriority none
      hnone

/-- Demo token map: provider A (groq) and provider B (huggingface) are
configured, the rest are not. -/
def demoTokens : String → Option String := fun q =>
  if q = "groq" then some "tA"
  else if q = "huggingface" then some "tB"
  else none

/-- Demo call outcomes: groq fails, everything else succeeds. -/
def demoCall : String → String → Except String String := fun q _ =>
  if q = "groq" then .error "boom" else .ok "hello"

/-- Witness for C6: with provider A (groq) failing and provider B
(huggingface) succeeding, the returned result is B's and B alone is
marked last-used. -/
theorem generateCompletion_spec_witness :
    generateCompletion demoTokens demoCall "default" =
      (.ok { text := "hello".trim, provider := "huggingface", model := "default", tokenCount := ("hello".length : ℚ) / 4 }, ["huggingface"]) := by
  have hskip : ∀ q ∈ ["groq"], skipsOrFails demoTokens demoCall q := by
    intro q hq
    simp only [List.mem_singleton] at hq
    subst hq
    exact Or.inr ⟨"tA", rfl, "boom", rfl⟩
  exact (generateCompletion_spec demoTokens demoCall "default").1
    ["groq"] "huggingface" ["together", "openrouter"] "tB" "hello" rfl hskip
    rfl rfl

/-! ## AI insight parsing (`generateFinancialInsights`,
`parseNaturalLanguageInsights`)

`JSON.parse` is a platform primitive, so it enters the embedding as a
parameter `jsonParse` (returning `none` where `JSON.parse` throws); the
regex extraction `/\[[\s\S]*\]/` and the line-based natural-language
parser are embedded structurally over character lists (JavaScript
`split('\n')` and `trim()` are modeled by `splitLines` and
`trimChars`). -/

/-- Everything of the list up to and including its last `]`. -/
def takeThroughLastRBracket (cs : List Char) : List Char :=
  ((cs.reverse.dropWhile (fun c => ¬ c = ']')).reverse)

/-- The first match of the greedy regex `/\[[\s\S]*\]/`: from the first
`[` that is followed by some `]`, through the last `]` of the string. -/
def jsonArrayMatchAux : List Char → Option (List Char)
  | [] => none
  | c :: rest =>
      if c = '[' then
        if rest.contains ']' then
          some ('[' :: takeThroughLastRBracket rest)
        else none
      else jsonArrayMatchAux rest

/-- `insightsText.match(/\[[\s\S]*\]/)`, as the matched substring. -/
def jsonArrayMatch (s : String) : Option String :=
  (jsonArrayMatchAux s.toList).map String.mk

/-- JavaScript `text.split('\n')`. -/
def splitLinesAux : List Char → List Char → List (List Char)
  | [], acc => [acc.reverse]
  | c :: rest, acc =>
      if c = '\n' then acc.reverse :: splitLinesAux rest []
      else splitLinesAux rest (c :: acc)

/-- Split a character list at newlines. -/
def splitLines (cs : List Char) : List (List Char) :=
  splitLinesAux cs []

/-- JavaScript `line.trim()`: strip whitespace from both ends. -/
def trimChars (cs : List Char) : List Char :=
  ((cs.dropWhile Char.isWhitespace).reverse.dropWhile Char.isWhitespace).reverse

/-- The regex test `/^[\d\*\-\•]/`: the line starts with a digit or a
bullet character. -/
def isBulletStart : List Char → Bool
  | [] => false
  | c :: _ => c.isDigit || c = '*' || c = '-' || c = '•'

/-- `line.replace(/^[\d\*\-\•\.\)]\s*/, '')`: drop one leading class
character and the whitespace run after it. -/
def stripBulletPrefix (line : List Char) : List Char :=
  match line with
  | [] => []
  | c :: rest =>
      if c.isDigit || c = '*' || c = '-' || c = '•' || c = '.' || c = ')' then
        rest.dropWhile Char.isWhitespace
      else line

/-- One structured insight of the natural-language parser. -/
structure NLInsight where
  itype : String
  title : String
  message : String
  recommendation : String
  impact : String
deriving Repr, DecidableEq

/-- The insight opened at a bullet line (`title` is the stripped line cut
to 80 characters). -/
def newInsight (line : List Char) : NLInsight :=
  { itype := "info"
    title := String.mk ((stripBulletPrefix line).take 80)
    message := String.mk line
    recommendation := ""
    impact := "medium" }

/-- The `forEach` of `parseNaturalLanguageInsights`: bullet lines open a
new insight (pushing the previous one), other lines are appended to the
current insight's message and dropped when no insight is open. -/
def nlLoop : List (List Char) → Option NLInsight → List NLInsight
  | [], cur =>
      match cur with
      | some i => [i]
      | none => []
  | line :: rest, cur =>
      if isBulletStart line then
        (match cur with
         | some i => [i]
         | none => []) ++ nlLoop rest (some (newInsight line))
      else
        match cur with
        | some i =>
            nlLoop rest (some { i with
              message := i.message ++ " " ++ String.mk line })
        | none => nlLoop rest none

/-- The single fallback insight of `parseNaturalLanguageInsights` when no
line produced an insight. -/
def nlFallbackInsight (text : String) : NLInsight :=
  { itype := "info", title := "AI Analysis", message := text,
    recommendation := "Review the analysis for financial guidance.",
    impact := "medium" }

/-- `parseNaturalLanguageInsights`: split into non-blank lines, run the
loop, and fall back to a single insight carrying the whole text. -/
def parseNaturalLanguageInsights (text : String) : List NLInsight :=
  let lines := (splitLines text.toList).filter (fun l => ¬ trimChars l = [])
  let insights := nlLoop lines none
  if 0 < insights.length then insights else [nlFallbackInsight text]

/-- The single insight returned from the `catch` branch of
`generateFinancialInsights` when `JSON.parse` throws. -/
def rawFallbackInsight (text : String) : NLInsight :=
  { itype := "info", title := "AI Financial Analysis", message := text,
    recommendation := "Review the analysis above for financial guidance.",
    impact := "medium" }

/-- The two shapes `generateFinancialInsights` can return: the parsed
JSON array, or structured fallback insights. -/
inductive InsightsOutcome (α : Type) where
  | parsed (insights : α)
  | raw (insights : List NLInsight)
deriving Repr, DecidableEq

/-- `generateFinancialInsights` after the completion text is obtained:
regex-extract a bracketed substring and JSON-parse it; on a failed parse
return the raw text as a single insight; with no bracketed substring run
the natural-language parser. -/
def generateFinancialInsights {α : Type} (jsonParse : String → Option α)
    (text : String) : InsightsOutcome α :=
  match jsonArrayMatch text with
  | some m =>
      match jsonParse m with
      | some insights => .parsed insights
      | none => .raw [rawFallbackInsight text]
  | none => .raw (parseNaturalLanguageInsights text)

/-- With no open insight and no bullet lines, the loop produces nothing. -/
theorem nlLoop_no_bullets (lines : List (List Char))
    (h : ∀ l ∈ lines, isBulletStart l = false) : nlLoop lines none = [] := by
  induction lines with
  | nil => rfl
  | cons l rest ih =>
      have hl := h l (List.mem_cons_self l rest)
      have hrest := ih (fun r hr => h r (List.mem_cons_of_mem l hr))
      simp [nlLoop, hl, hrest]

/-- C9: when the completion text contains a bracketed substring and the
extracted match parses as JSON, the parsed array is returned as the
insights list; when the extracted match fails to parse, the result is a
single insight carrying the raw text; when no bracketed substring exists,
the natural-language parser runs and always returns a non-empty list,
whose no-structure fallback is a single insight carrying the raw text —
in no case does the function throw. -/
theorem generateFinancialInsights_spec {α : Type}
    (jsonParse : String → Option α) (text m : String) (v : α) :
    (jsonArrayMatch text = some m → jsonParse m = some v →
      generateFinancialInsights jsonParse text = .parsed v) ∧
    (jsonArrayMatch text = some m → jsonParse m = none →
      generateFinancialInsights jsonParse text =
          .raw [rawFallbackInsight text] ∧
        (rawFallbackInsight text).message = text) ∧
    (jsonArrayMatch text = none →
      generateFinancialInsights jsonParse text =
          .raw (parseNaturalLanguageInsights text) ∧
        parseNaturalLanguageInsights text ≠ [] ∧
        ((∀ l ∈ (splitLines text.toList).filter
            (fun l => ¬ trimChars l = []), isBulletStart l = false) →
          parseNaturalLanguageInsights text = [nlFallbackInsight text] ∧
          (nlFallbackInsight text).message = text)) := by
  refine ⟨?_, ?_, ?_⟩
  · intro h1 h2
    simp [generateFinancialInsights, h1, h2]
  · intro h1 h2
    exact ⟨by simp [generateFinancialInsights, h1, h2], rfl⟩
  · intro h1
    refine ⟨by simp [generateFinancialInsights, h1], ?_, ?_⟩
    · simp only [parseNaturalLanguageInsights]
      split
      · next hpos => exact List.ne_nil_of_length_pos hpos
      · simp
    · intro hnb
      have hloop := nlLoop_no_bullets _ hnb
      refine ⟨?_, rfl⟩
      simp only [parseNaturalLanguageInsights]
      rw [hloop]
      simp

/-- A JSON parser recognizing exactly the array `[1]`. -/
def demoParse : String → Option ℕ := fun s =>
  if s = "[1]" then some 1 else none

/-- Witness for C9: a text containing `[1]` parses to the array, and a
plain text with no brackets and no bullet lines falls back to one insight
carrying the raw text. -/
theorem generateFinancialInsights_spec_witness :
    generateFinancialInsights demoParse "x [1] y" = .parsed 1 ∧
    generateFinancialInsights demoParse "plain advice" =
      .raw [nlFallbackInsight "plain advice"] ∧
    (nlFallbackInsight "plain advice").message = "plain advice" := by
  have h1 := generateFinancialInsights_spec demoParse "x [1] y" "[1]" (1 : ℕ)
  have h2 := generateFinancialInsights_spec demoParse "plain advice" "[1]"
    (1 : ℕ)
  refine ⟨h1.1 (by decide) (by decide), ?_, rfl⟩
  have h3 := h2.2.2 (by decide)
  have h4 := h3.2.2 (by decide)
  rw [h3.1, h4.1]

/-! ## Token encryption (`utils/encryption.js`)

`encrypt` produces `ivHex:cipherHex:authTagHex` under AES-256-GCM;
`decrypt` splits on `:`, requires exactly three parts, and reverses the
cipher after verifying the auth tag.  The AES-GCM core and the UTF-8
codec are platform primitives, so they enter the embedding as function
parameters (`cipherF`/`decipherF`/`tagF` over key, iv and data bytes,
and `enc`/`dec` for the text codec); hex encoding, the `:` format and
the guards are embedded from the source. -/

/-- One hex digit. -/
def hexDigitChar (n : ℕ) : Char :=
  "0123456789abcdef".toList.getD n '0'

/-- A byte as two hex digits. -/
def byteToHex (b : ℕ) : List Char :=
  [hexDigitChar (b / 16), hexDigitChar (b % 16)]

/-- `buffer.toString('hex')` over a byte list. -/
def hexEncodeChars (bs : List ℕ) : List Char :=
  (bs.map byteToHex).flatten

/-- The value of a hex digit. -/
def hexDigitVal (c : Char) : Option ℕ :=
  "0123456789abcdef".toList.indexOf? c

/-- `Buffer.from(s, 'hex')`: decode hex pairs, failing on malformed
input. -/
def hexDecodeAux : List Char → Option (List ℕ)
  | [] => some []
  | [_] => none
  | c1 :: c2 :: rest =>
      match hexDigitVal c1, hexDigitVal c2, hexDecodeAux rest with
      | some h, some l, some bs => some ((h * 16 + l) :: bs)
      | _, _, _ => none

/-- Hex-decode a string. -/
def hexDecode (s : String) : Option (List ℕ) :=
  hexDecodeAux s.toList

/-- Split a character list at a separator character (JavaScript
`String.prototype.split` with a single-character separator). -/
def splitOnCharAux (sep : Char) : List Char → List Char → List (List Char)
  | [], acc => [acc.reverse]
  | c :: rest, acc =>
      if c = sep then acc.reverse :: splitOnCharAux sep rest []
      else splitOnCharAux sep rest (c :: acc)

/-- `encryptedData.split(':')`. -/
def splitOnColon (s : String) : List String :=
  (splitOnCharAux ':' s.toList []).map String.mk

/-- `encrypt`: refuse empty text, otherwise return
`ivHex:cipherHex:authTagHex`. -/
def encrypt (key iv : List ℕ)
    (cipherF tagF : List ℕ → List ℕ → List ℕ → List ℕ)
    (enc : String → List ℕ) (text : String) : Except String String :=
  if text = "" then .error "Text to encrypt cannot be empty"
  else
    let cipherBytes := cipherF key iv (enc text)
    let authTag := tagF key iv cipherBytes
    .ok (String.mk (hexEncodeChars iv ++ ':' :: hexEncodeChars cipherBytes ++
      ':' :: hexEncodeChars authTag))

/-- `decrypt`: refuse empty input; split on `:` and require exactly three
parts; decode the parts, verify the auth tag, and reverse the cipher.
Every failure inside the `try` collapses to the same error message. -/
def decrypt (key : List ℕ)
    (decipherF tagF : List ℕ → List ℕ → List ℕ → List ℕ)
    (dec : List ℕ → String) (encryptedData : String) : Except String String :=
  if encryptedData = "" then .error "Encrypted data cannot be empty"
  else
    let parts := splitOnColon encryptedData
    if ¬ parts.length = 3 then .error "Failed to decrypt data"
    else
      match hexDecode (parts.getD 0 ""), hexDecode (parts.getD 1 ""),
        hexDecode (parts.getD 2 "") with
      | some iv, some cipherBytes, some authTag =>
          if tagF key iv cipherBytes = authTag then
            .ok (dec (decipherF key iv cipherBytes))
          else .error "Failed to decrypt data"
      | _, _, _ => .error "Failed to decrypt data"

/-- The ciphertext string `encrypt` produces for a non-empty text. -/
def encryptOutput (key iv : List ℕ)
    (cipherF tagF : List ℕ → List ℕ → List ℕ → List ℕ)
    (enc : String → List ℕ) (text : String) : String :=
  String.mk (hexEncodeChars iv ++
    ':' :: hexEncodeChars (cipherF key iv (enc text)) ++
    ':' :: hexEncodeChars (tagF key iv (cipherF key iv (enc text))))

/-- Hex digits are never the separator `:`. -/
theorem hexDigitChar_ne_colon (n : ℕ) : hexDigitChar n ≠ ':' := by
  by_cases h : n < 16
  · have hall : ∀ m, m < 16 → hexDigitChar m ≠ ':' := by decide
    exact hall n h
  · unfold hexDigitChar
    rw [List.getD_eq_default]
    · decide
    · simpa using Nat.le_of_not_lt h

/-- Hex-encoded byte lists contain no `:`. -/
theorem colon_not_mem_hexEncodeChars (bs : List ℕ) :
    ':' ∉ hexEncodeChars bs := by
  intro hmem
  simp only [hexEncodeChars, List.mem_flatten, List.mem_map] at hmem
  obtain ⟨l, ⟨b, _, rfl⟩, hc⟩ := hmem
  simp only [byteToHex, List.mem_cons, List.not_mem_nil, or_false] at hc
  rcases hc with hc | hc
  · exact hexDigitChar_ne_colon _ hc.symm
  · exact hexDigitChar_ne_colon _ hc.symm

/-- Hex decoding inverts hex encoding on byte lists. -/
theorem hexDecodeAux_hexEncodeChars (bs : List ℕ)
    (h : ∀ b ∈ bs, b < 256) : hexDecodeAux (hexEncodeChars bs) = some bs := by
  induction bs with
  | nil => rfl
  | cons b tl ih =>
      have hb := h b (List.mem_cons_self b tl)
      have htl := ih (fun x hx => h x (List.mem_cons_of_mem b hx))
      have hv : ∀ m, m < 16 → hexDigitVal (hexDigitChar m) = some m := by
        decide
      have hdiv : b / 16 < 16 := by omega
      have hmod : b % 16 < 16 := by omega
      have hval : b / 16 * 16 + b % 16 = b := by omega
      simp only [hexEncodeChars, List.map_cons, List.flatten_cons, byteToHex,
        List.cons_append, List.nil_append]
      have htl' : hexDecodeAux ((List.map byteToHex tl).flatten) = some tl :=
        htl
      simp only [hexDecodeAux, hv _ hdiv, hv _ hmod, htl', hval]

/-- Splitting consumes a separator-free prefix up to the separator. -/
theorem splitOnCharAux_append_sep (sep : Char) (A rest : List Char) :
    ∀ acc, sep ∉ A →
      splitOnCharAux sep (A ++ sep :: rest) acc =
        (acc.reverse ++ A) :: splitOnCharAux sep rest [] := by
  induction A with
  | nil => intro acc _; simp [splitOnCharAux]
  | cons c A' ih =>
      intro acc hA
      have hc : ¬ c = sep := by
        rintro rfl
        exact hA (List.mem_cons_self c A')
      have hA' : sep ∉ A' := fun hmem => hA (List.mem_cons_of_mem c hmem)
      rw [List.cons_append]
      simp only [splitOnCharAux, if_neg hc]
      rw [ih (c :: acc) hA']
      simp

/-- Splitting a separator-free list yields a single part. -/
theorem splitOnCharAux_no_sep (sep : Char) (A : List Char) :
    ∀ acc, sep ∉ A → splitOnCharAux sep A acc = [acc.reverse ++ A] := by
  induction A with
  | nil => intro acc _; simp [splitOnCharAux]
  | cons c A' ih =>
      intro acc hA
      have hc : ¬ c = sep := by
        rintro rfl
        exact hA (List.mem_cons_self c A')
      have hA' : sep ∉ A' := fun hmem => hA (List.mem_cons_of_mem c hmem)
      simp only [splitOnCharAux, if_neg hc]
      rw [ih (c :: acc) hA']
      simp

/-- The ciphertext splits into exactly its three hex parts. -/
theorem splitOnColon_encryptOutput (key iv : List ℕ)
    (cipherF tagF : List ℕ → List ℕ → List ℕ → List ℕ)
    (enc : String → List ℕ) (s : String) :
    splitOnColon (encryptOutput key iv cipherF tagF enc s) =
      [String.mk (hexEncodeChars iv),
       String.mk (hexEncodeChars (cipherF key iv (enc s))),
       String.mk (hexEncodeChars (tagF key iv (cipherF key iv (enc s))))] := by
  simp only [splitOnColon, encryptOutput]
  rw [show (String.mk (hexEncodeChars iv ++
    ':' :: hexEncodeChars (cipherF key iv (enc s)) ++
    ':' :: hexEncodeChars (tagF key iv (cipherF key iv (enc s))))).toList =
      hexEncodeChars iv ++
        ':' :: (hexEncodeChars (cipherF key iv (enc s)) ++
          ':' :: hexEncodeChars (tagF key iv (cipherF key iv (enc s))))
    by simp]
  rw [splitOnCharAux_append_sep _ _ _ [] (colon_not_mem_hexEncodeChars iv)]
  rw [splitOnCharAux_append_sep _ _ _ []
    (colon_not_mem_hexEncodeChars (cipherF key iv (enc s)))]
  rw [splitOnCharAux_no_sep _ _ []
    (colon_not_mem_hexEncodeChars (tagF key iv (cipherF key iv (enc s))))]
  simp

/-- C10: under a fixed key, decrypt inverts encrypt on every non-empty
string (given that the platform cipher, tag and UTF-8 codec invert at
that input and produce bytes); encrypting the empty string errors rather
than producing ciphertext; and decrypt errors on the empty string and on
every input that does not split into exactly three colon-separated
parts. -/
theorem encrypt_decrypt_spec (key iv : List ℕ)
    (cipherF decipherF tagF : List ℕ → List ℕ → List ℕ → List ℕ)
    (enc : String → List ℕ) (dec : List ℕ → String) (s input : String)
    (hs : ¬ s = "")
    (hiv : ∀ b ∈ iv, b < 256)
    (hcb : ∀ b ∈ cipherF key iv (enc s), b < 256)
    (htb : ∀ b ∈ tagF key iv (cipherF key iv (enc s)), b < 256)
    (hinv : decipherF key iv (cipherF key iv (enc s)) = enc s)
    (hdec : dec (enc s) = s) :
    (encrypt key iv cipherF tagF enc s =
        .ok (encryptOutput key iv cipherF tagF enc s) ∧
      decrypt key decipherF tagF dec
        (encryptOutput key iv cipherF tagF enc s) = .ok s) ∧
    encrypt key iv cipherF tagF enc "" =
      .error "Text to encrypt cannot be empty" ∧
    (¬ input = "" → ¬ (splitOnColon input).length = 3 →
      decrypt key decipherF tagF dec input =
        .error "Failed to decrypt data") ∧
    decrypt key decipherF tagF dec "" =
      .error "Encrypted data cannot be empty" := by
  refine ⟨⟨?_, ?_⟩, rfl, ?_, rfl⟩
  · simp [encrypt, encryptOutput, hs]
  · have hne : ¬ encryptOutput key iv cipherF tagF enc s = "" := by
      intro h
      have := congrArg String.toList h
      simp only [encryptOutput] at this
      simp at this
    have hsplit := splitOnColon_encryptOutput key iv cipherF tagF enc s
    simp only [decrypt, if_neg hne, hsplit]
    have hgetI : hexDecode (String.mk (hexEncodeChars iv)) = some iv :=
      hexDecodeAux_hexEncodeChars iv hiv
    have hgetC : hexDecode (String.mk (hexEncodeChars
        (cipherF key iv (enc s)))) = some (cipherF key iv (enc s)) :=
      hexDecodeAux_hexEncodeChars _ hcb
    have hgetT : hexDecode (String.mk (hexEncodeChars
        (tagF key iv (cipherF key iv (enc s))))) =
        some (tagF key iv (cipherF key iv (enc s))) :=
      hexDecodeAux_hexEncodeChars _ htb
    simp [List.getD, hgetI, hgetC, hgetT, hinv, hdec]
  · intro hemp hlen
    simp [decrypt, hemp, hlen]

/-- The identity cipher. -/
def demoCipher : List ℕ → List ℕ → List ℕ → List ℕ := fun _ _ d => d

/-- A constant auth tag. -/
def demoTag : List ℕ → List ℕ → List ℕ → List ℕ := fun _ _ _ => [7]

/-- Code points as the text codec. -/
def demoEnc : String → List ℕ := fun s => s.toList.map Char.toNat

/-- Inverse of `demoEnc`. -/
def demoDec : List ℕ → String := fun l => String.mk (l.map Char.ofNat)

/-- Witness for C10 at key [], iv [0, 255] and the text "ab". -/
theorem encrypt_decrypt_spec_witness :
    (encrypt [] [0, 255] demoCipher demoTag demoEnc "ab" =
        .ok (encryptOutput [] [0, 255] demoCipher demoTag demoEnc "ab") ∧
      decrypt [] demoCipher demoTag demoDec
        (encryptOutput [] [0, 255] demoCipher demoTag demoEnc "ab") =
        .ok "ab") ∧
    encrypt [] [0, 255] demoCipher demoTag demoEnc "" =
      .error "Text to encrypt cannot be empty" ∧
    decrypt [] demoCipher demoTag demoDec "ab:cd" =
      .error "Failed to decrypt data" := by
  have h := encrypt_decrypt_spec [] [0, 255] demoCipher demoCipher demoTag
    demoEnc demoDec "ab" "ab:cd" (by decide) (by decide) (by decide)
    (by decide) rfl (by decide)
  exact ⟨h.1, h.2.1, h.2.2.1 (by decide) (by decide)⟩
